import Mathlib

/-!
Verification of the knob repository: a shallow embedding, over the rationals,
of the drag-to-value mapping (Knob.tsx), the fan gauge tick projection
(FanGauge), the debounced single-flight evaluation scheduler, the geometry
interop converter and the gcode artifact extraction
(PolygonsToolPreview3D.tsx), together with theorems settling the frozen
claims about the specification.
-/

namespace Knob

/-- JavaScript `Math.round`: round half toward positive infinity. -/
def jsRound (x : ℚ) : ℤ := ⌊x + 1 / 2⌋

/-- JavaScript `Number(x.toFixed(p))` on exact rational input: round to `p`
decimal digits, ties away from zero (the ECMAScript `toFixed` algorithm is
applied to the absolute value with ties picking the larger digit string). -/
def toFixed (p : ℕ) (x : ℚ) : ℚ :=
  if x < 0 then -(((⌊-x * 10 ^ p + 1 / 2⌋ : ℤ) : ℚ) / 10 ^ p)
  else ((⌊x * 10 ^ p + 1 / 2⌋ : ℤ) : ℚ) / 10 ^ p

/-- Number of fractional decimal digits of a rational whose denominator is
10-smooth: the least `d` with `q.den ∣ 10 ^ d`.  This is the length of
`step.toString().split(".")[1]` for a step with a terminating decimal
expansion (every JavaScript float step used by the knobs).  For a
denominator that is not 10-smooth no such `d` exists and the search falls
back to 17, the maximal digit count `Number.prototype.toString` emits. -/
def fracDigits (q : ℚ) : ℕ :=
  (((List.range (q.den + 1)).find? fun d => decide (q.den ∣ 10 ^ d))).getD 17

/-- The drag session state captured by the Knob component:
`startX`/`startValue` are set on mousedown/touchstart, `min`, `max`, `step`
are the component props (`step` optional). -/
structure DragState where
  startX : ℚ
  startValue : ℚ
  min : ℚ
  max : ℚ
  step : Option ℚ
deriving DecidableEq

/-- `handleMouseMove` from Knob.tsx: given the drag state and the pointer
`clientX`, compute the emitted value.  Dragging 200px covers the full
range; the value is clamped with `Math.min(max, Math.max(min, …))`,
quantized with `Math.round(v / step) * step` when `step` is truthy
(present and nonzero), and finally passed through
`Number(v.toFixed(precision))` where `precision` is the number of decimal
digits of `step` (0 when `step` has none) or 2 when `step` is not set. -/
def handleMouseMove (s : DragState) (clientX : ℚ) : ℚ :=
  let deltaX := clientX - s.startX
  let range := s.max - s.min
  let sensitivity := range / 200
  let clamped := min s.max (max s.min (s.startValue + deltaX * sensitivity))
  let quantized :=
    match s.step with
    | some st => if st ≠ 0 then ((jsRound (clamped / st) : ℚ) * st) else clamped
    | none => clamped
  let precision :=
    match s.step with
    | some st => if st ≠ 0 then fracDigits st else 2
    | none => 2
  toFixed precision quantized

/-- `handleTouchMove` from Knob.tsx: identical computation to
`handleMouseMove`, reading `e.touches[0].clientX` instead of `e.clientX`;
the function below receives that coordinate as `clientX`. -/
def handleTouchMove (s : DragState) (clientX : ℚ) : ℚ :=
  let deltaX := clientX - s.startX
  let range := s.max - s.min
  let sensitivity := range / 200
  let clamped := min s.max (max s.min (s.startValue + deltaX * sensitivity))
  let quantized :=
    match s.step with
    | some st => if st ≠ 0 then ((jsRound (clamped / st) : ℚ) * st) else clamped
    | none => clamped
  let precision :=
    match s.step with
    | some st => if st ≠ 0 then fracDigits st else 2
    | none => 2
  toFixed precision quantized

/-- The ValueMapper `update` contract as worded by the specification:
`raw = clamp(anchorValue + delta * sensitivity, min, max)` with
`sensitivity = (max - min) / 200`; if a quantization step is configured,
`raw = round(raw / step) * step`; the result is rounded to a decimal
precision derived from the fractional digit count of the step (default 2
when no step is set). -/
def specUpdate (s : DragState) (pointerX : ℚ) : ℚ :=
  let delta := pointerX - s.startX
  let sensitivity := (s.max - s.min) / 200
  let raw := min s.max (max s.min (s.startValue + delta * sensitivity))
  let raw2 :=
    match s.step with
    | some st => ((jsRound (raw / st) : ℚ) * st)
    | none => raw
  let precision :=
    match s.step with
    | some st => fracDigits st
    | none => 2
  toFixed precision raw2

end Knob

namespace Gauge

/-- Truncation toward zero, the rounding used by the JavaScript `%`
operator on its implicit division. -/
def truncQ (q : ℚ) : ℤ := if q < 0 then ⌈q⌉ else ⌊q⌋

/-- The JavaScript remainder operator `x % y`: `x - y * trunc(x / y)`,
keeping the sign of the dividend. -/
def jsMod (x y : ℚ) : ℚ := x - y * (truncQ (x / y) : ℚ)

/-- The total angular width of the fan (`arcAngle` in FanGauge). -/
def arcAngle : ℚ := 120

/-- `tickCount` from FanGauge: `Math.round((max - min) / subStep) + 1`
when `subStep` is truthy (present and nonzero), else the default 41.
A nonpositive length yields an empty tick array, hence the `toNat`. -/
def tickCount (mn mx : ℚ) (subStep : Option ℚ) : ℕ :=
  match subStep with
  | some s => if s ≠ 0 then (Knob.jsRound ((mx - mn) / s) + 1).toNat else 41
  | none => 41

/-- Nominal value of tick `i` of `n`: `min + (i / (n - 1)) * (max - min)`. -/
def tickValue (mn mx : ℚ) (n i : ℕ) : ℚ :=
  mn + ((i : ℚ) / ((n : ℚ) - 1)) * (mx - mn)

/-- `isCurrent` from FanGauge: the tick is within half a tick spacing of
the current value, `Math.abs(tickValue - value) < (max - min) / (tickCount - 1) / 2`. -/
def isCurrentTick (value mn mx : ℚ) (n i : ℕ) : Bool :=
  decide (|tickValue mn mx n i - value| < (mx - mn) / ((n : ℚ) - 1) / 2)

/-- `angleInDegrees` from FanGauge: `baseAngle - centerAngleOffset`, where
`centerAngleOffset = valueRatio * arcAngle - arcAngle / 2` and
`baseAngle = -arcAngle / 2 + tickRatio * arcAngle`. -/
def tickAngle (value mn mx : ℚ) (n i : ℕ) : ℚ :=
  let vr := (value - mn) / (mx - mn)
  let tr := (i : ℚ) / ((n : ℚ) - 1)
  let centerAngleOffset := vr * arcAngle - arcAngle / 2
  let baseAngle := -(arcAngle / 2) + tr * arcAngle
  baseAngle - centerAngleOffset

/-- `isMainStepTick` from FanGauge: the nominal value is a multiple of the
truthy `mainStep` (or of 1 when `mainStep` is absent or zero), within a
0.001 tolerance on the JavaScript remainder from either side. -/
def isMainStepTick (tv : ℚ) (mainStep : Option ℚ) : Bool :=
  match mainStep with
  | some ms =>
    if ms ≠ 0 then
      decide (|jsMod tv ms| < 1 / 1000) || decide (|jsMod tv ms - ms| < 1 / 1000)
    else
      decide (|jsMod tv 1| < 1 / 1000) || decide (|jsMod tv 1 - 1| < 1 / 1000)
  | none =>
    decide (|jsMod tv 1| < 1 / 1000) || decide (|jsMod tv 1 - 1| < 1 / 1000)

/-- One rendered tick descriptor: displayed angle, current/major
classification and opacity (the numeric label text is display formatting
of the nominal value and is not modelled). -/
structure GaugeTick where
  angle : ℚ
  isCurrent : Bool
  isMajor : Bool
  opacity : ℚ
deriving DecidableEq

/-- The tick descriptor FanGauge renders for index `i`: opacity is
`Math.max(0, 1 - Math.abs(angleInDegrees) / 60)`. -/
def mkGaugeTick (value mn mx : ℚ) (mainStep : Option ℚ) (n i : ℕ) : GaugeTick :=
  let ang := tickAngle value mn mx n i
  { angle := ang
    isCurrent := isCurrentTick value mn mx n i
    isMajor := isMainStepTick (tickValue mn mx n i) mainStep
    opacity := max 0 (1 - |ang| / 60) }

/-- The tick sequence FanGauge produces: indices `0 … tickCount - 1`, with
`null` returned (and filtered from the rendered output) whenever
`Math.abs(angleInDegrees) > 90`. -/
def fanGaugeTicks (value mn mx : ℚ) (subStep mainStep : Option ℚ) : List GaugeTick :=
  let n := tickCount mn mx subStep
  (List.range n).filterMap fun i =>
    if |tickAngle value mn mx n i| > 90 then none
    else some (mkGaugeTick value mn mx mainStep n i)

/-- The opacity law as worded by the claim: opacity decreases linearly
with the absolute displayed angle and reaches 0 exactly at the 90 degree
visibility threshold at which ticks are dropped. -/
def claimOpacity (ang : ℚ) : ℚ := max 0 (1 - |ang| / 90)

end Gauge

namespace Geometry

/-- A renderable point or vertex (the evaluator hands vertices over as
`[x, y, z]` triples which the converter flattens). -/
structure Vec3 where
  x : ℚ
  y : ℚ
  z : ℚ
deriving DecidableEq

/-- The tagged geometry interchange record of the evaluator
(`interop.variant` is `"Mesh"`, `"Curve"`, or something the converter
does not recognize). -/
inductive GeometryInterop
  | mesh (vertices : List Vec3) (normals : Option (List Vec3))
      (faces : Option (List (ℕ × ℕ × ℕ)))
  | curve (vertices : List Vec3)
  | unrecognized
deriving DecidableEq

/-- Entry `i` of the 16-element column-major matrix array handed to
`THREE.Matrix4.fromArray` (missing entries read as 0). -/
def matAt (t : List ℚ) (i : ℕ) : ℚ := t.getD i 0

/-- `THREE.Vector3.applyMatrix4` with a column-major element array: the
homogeneous transform with perspective divide that
`BufferGeometry.applyMatrix4` applies to every position. -/
def applyMatrix4 (t : List ℚ) (v : Vec3) : Vec3 :=
  let w := matAt t 3 * v.x + matAt t 7 * v.y + matAt t 11 * v.z + matAt t 15
  let iw := 1 / w
  { x := (matAt t 0 * v.x + matAt t 4 * v.y + matAt t 8 * v.z + matAt t 12) * iw
    y := (matAt t 1 * v.x + matAt t 5 * v.y + matAt t 9 * v.z + matAt t 13) * iw
    z := (matAt t 2 * v.x + matAt t 6 * v.y + matAt t 10 * v.z + matAt t 14) * iw }

/-- `vertices.flat(1)`: flatten a list of `[x, y, z]` triples into one
component list (3 components per vertex). -/
def flattenVec3 : List Vec3 → List ℚ
  | [] => []
  | v :: r => v.x :: v.y :: v.z :: flattenVec3 r

/-- `faces.flat(1)`: flatten triangular faces into one index list
(3 indices per face). -/
def flattenFaces : List (ℕ × ℕ × ℕ) → List ℕ
  | [] => []
  | (a, b, c) :: r => a :: b :: c :: flattenFaces r

/-- The renderer-ready buffers of one converted record: position
components, optional normal components, optional triangle indices. -/
structure BufferGeometry where
  position : List ℚ
  normal : Option (List ℚ)
  index : Option (List ℕ)
deriving DecidableEq

/-- `convertGeometryInterop` from PolygonsToolPreview3D.tsx.  A Mesh
yields a position buffer (built from the flattened vertices, then
transformed by `applyMatrix4` — modelled as transform-then-flatten, which
commutes), an optional normal buffer when normals are present (the
external renderer library additionally rotates normals by the normal
matrix of the transform; no claim depends on those values), and an
optional index buffer when face data is present.  A Curve yields only a
transformed position buffer.  Any other variant converts to `null`. -/
def convertGeometryInterop : GeometryInterop → List ℚ → Option BufferGeometry
  | .mesh vertices normals faces, transform =>
    some
      { position := flattenVec3 (vertices.map (applyMatrix4 transform))
        normal := normals.map flattenVec3
        index := faces.map flattenFaces }
  | .curve vertices, transform =>
    some
      { position := flattenVec3 (vertices.map (applyMatrix4 transform))
        normal := none
        index := none }
  | .unrecognized, _ => none

/-- Whether the record carries the Mesh tag
(`interop?.variant === "Mesh" ? "mesh" : "curve"`). -/
def isMeshVariant : GeometryInterop → Bool
  | .mesh _ _ _ => true
  | _ => false

/-- `processGeometries` from PolygonsToolPreview3D.tsx: convert every
geometry identifier of one evaluation result set (here the pairs of
interop record and transform the evaluator yields for them) and keep the
non-null conversions, tagged mesh or curve. -/
def processGeometries (items : List (GeometryInterop × List ℚ)) :
    List (BufferGeometry × Bool) :=
  items.filterMap fun it =>
    (convertGeometryInterop it.1 it.2).map fun g => (g, isMeshVariant it.1)

/-- The 16-element column-major array of the identity transform. -/
def identityTransform : List ℚ :=
  [1, 0, 0, 0, 0, 1, 0, 0, 0, 0, 1, 0, 0, 0, 0, 1]

/-- The column-major array of a pure translation by `(tx, ty, tz)`. -/
def translationTransform (tx ty tz : ℚ) : List ℚ :=
  [1, 0, 0, 0, 0, 1, 0, 0, 0, 0, 1, 0, tx, ty, tz, 1]

/-- A concrete 4-vertex tetrahedron vertex list for scenarios. -/
def sampleVertices : List Vec3 :=
  [⟨0, 0, 0⟩, ⟨1, 0, 0⟩, ⟨0, 1, 0⟩, ⟨0, 0, 1⟩]

/-- Two concrete triangular faces over `sampleVertices`. -/
def sampleFaces : List (ℕ × ℕ × ℕ) :=
  [(0, 1, 2), (0, 2, 3)]

end Geometry

namespace Sched

/-- A property value carried by a graph node
(`{type: "Vector2d", content: [a, b]}`, `{type: "Number", content: q}`,
or anything else). -/
inductive PropValue
  | vector2d (a b : ℚ)
  | number (q : ℚ)
  | other
deriving DecidableEq

/-- One entry of `node.properties`. -/
structure NodeProp where
  name : String
  value : PropValue
deriving DecidableEq

/-- One record of `modular.getNodes()`: id, optional label, optional
property list. -/
structure ModNode where
  id : String
  label : Option String
  properties : Option (List NodeProp)
deriving DecidableEq

/-- One entry of an output channel (`entry.data` is the payload). -/
structure OutputEntry where
  data : PropValue
deriving DecidableEq

/-- A textual payload for the gcode artifact is modelled alongside the
numeric payloads: extend `PropValue` would disturb node properties, so
the entry payload gets its own sum. -/
inductive Payload
  | str (s : String)
  | num (q : ℚ)
  | other
deriving DecidableEq

/-- One entry of an output channel as the gcode extractor reads it. -/
structure OutEntry where
  data : Payload
deriving DecidableEq

/-- The observable state of the external `Modular` evaluator at one
moment: the node list `getNodes()` yields, and per node id the nested
structure `getNodeOutput(id)` yields — a list of channels, each channel a
string-keyed map to entry lists. -/
structure ModularState where
  nodes : List ModNode
  outputs : List (String × List (List (String × List OutEntry)))
deriving DecidableEq

/-- Lookup by string key in an association list (the `Map.get` /
record-by-id accesses of the component). -/
def lookupByKey {α : Type} (k : String) (l : List (String × α)) : Option α :=
  (l.find? fun kv => kv.1 == k).map fun kv => kv.2

/-- The diameter node fingerprint from PolygonsToolPreview3D.tsx: the
first node whose properties carry a `range` of type `Vector2d` with
content `[80, 250]`. -/
def findDiameterNode (nodes : List ModNode) : Option ModNode :=
  nodes.find? fun node =>
    match node.properties with
    | some properties =>
      match properties.find? fun p => p.name == "range" with
      | some rangeProperty =>
        match rangeProperty.value with
        | .vector2d a b => a == 80 && b == 250
        | _ => false
      | none => false
    | none => false

/-- The polygon node fingerprint: the first node whose properties carry a
`range` of type `Vector2d` with content `[3, 16]`. -/
def findPolygonNode (nodes : List ModNode) : Option ModNode :=
  nodes.find? fun node =>
    match node.properties with
    | some properties =>
      match properties.find? fun p => p.name == "range" with
      | some rangeProperty =>
        match rangeProperty.value with
        | .vector2d a b => a == 3 && b == 16
        | _ => false
      | none => false
    | none => false

/-- `getNodeOutput(id)` of the modelled evaluator state. -/
def getNodeOutput (m : ModularState) (id : String) :
    Option (List (List (String × List OutEntry))) :=
  lookupByKey id m.outputs

/-- The nested access `gcodeOutput?.[0]?.get("0")?.[0]?.data` of
`extractGcode`: first channel, key `"0"`, first entry, payload. -/
def gcodePayload (m : ModularState) (id : String) : Option Payload :=
  match getNodeOutput m id with
  | some (ch0 :: _) =>
    match lookupByKey "0" ch0 with
    | some (e0 :: _) => some e0.data
    | _ => none
  | _ => none

/-- `extractGcode` from PolygonsToolPreview3D.tsx, with the callback
`onGcodeUpdate(textGcode)` modelled as replacing the previously exported
artifact: find the node labeled `gcode`; when the extracted payload is a
truthy string (`textGcode && typeof textGcode === "string"`, so a
nonempty string), the artifact becomes that string, otherwise the
previous artifact value is kept. -/
def extractGcode (m : ModularState) (prev : Option String) : Option String :=
  match m.nodes.find? fun node => node.label == some "gcode" with
  | some gcodeNode =>
    match gcodePayload m gcodeNode.id with
    | some (.str s) => if s ≠ "" then some s else prev
    | _ => prev
  | none => prev

/-- Outcome of one evaluator invocation: the `await modular.evaluate()`
either throws (`failed`), or settles with an optional
`geometryIdentifiers` set — modelled directly as the interop records and
transforms the component then reads for them — and with the evaluator
state `extractGcode` then inspects. -/
inductive EvalOutcome
  | failed
  | ok (geoms : Option (List (Geometry.GeometryInterop × List ℚ)))
      (m : ModularState)
deriving DecidableEq

/-- The scheduler-relevant state of one PolygonsToolPreview3D instance.
`diameter`/`polygon` are the current prop values; `timer` is the pending
debounce timeout together with the prop values its callback closure
captured; `isEvaluating` is `isEvaluatingRef.current`; `diamNode` and
`polyNode` are the resolved node ids.  `inflight` (number of evaluator
invocations currently awaited), `lastApplied` (result set of the last
fully applied evaluation), `calls` (the property-update batches pushed
before each debounced evaluation) and `evalCount` (number of evaluator
invocations started) are observer fields that record what happened; they
influence nothing. -/
structure SchedState where
  diameter : ℚ
  polygon : ℚ
  loadStarted : Bool
  initialized : Bool
  isEvaluating : Bool
  timer : Option (ℚ × ℚ)
  diamNode : Option String
  polyNode : Option String
  geometries : List (Geometry.BufferGeometry × Bool)
  gcode : Option String
  inflight : ℕ
  lastApplied : Option (List (Geometry.GeometryInterop × List ℚ))
  calls : List (List (String × ℚ))
  evalCount : ℕ
deriving DecidableEq

/-- The events of the single-threaded event loop the component lives in:
the one-time load effect, a parameter-change render (which first runs the
cleanup of the previous parameter effect, clearing its pending timeout,
then the new effect body), the expiry of the pending debounce timeout,
and the settling of the awaited evaluator call. -/
inductive SchedEvent
  | load (m : ModularState)
  | change (d p : ℚ)
  | fire
  | complete (o : EvalOutcome)

/-- The property updates the debounce callback pushes: `value` of the
diameter node (when resolved) set to the captured diameter, then `value`
of the polygon node (when resolved) set to the captured polygon count. -/
def updatesFor (dn pn : Option String) (d p : ℚ) : List (String × ℚ) :=
  (match dn with | some i => [(i, d)] | none => []) ++
  (match pn with | some i => [(i, p)] | none => [])

/-- One step of the component under one event, translated from the two
effects of PolygonsToolPreview3D.tsx.
Load: runs once (`loadStarted` guards re-entry), sets the evaluating flag,
resolves both node fingerprints and starts the initial evaluation.
Change: the cleanup of the previous effect clears any pending timeout;
the body returns early unless initialized, not evaluating, and at least
one node resolved; otherwise it schedules a fresh 150 ms timeout closing
over the new prop values.
Fire: the timeout callback returns early when the evaluating flag is set;
otherwise it sets the flag, pushes the property updates and starts an
evaluation.
Complete: the continuation after `await modular.evaluate()`: on success
with a `geometryIdentifiers` set, the displayed geometry set is replaced
wholesale by the converted result and the gcode artifact is re-extracted;
on success the load path marks initialization done; the `finally` clause
always clears the evaluating flag. -/
def step (s : SchedState) : SchedEvent → SchedState
  | .load m =>
    if s.loadStarted then s
    else
      { s with
        loadStarted := true
        isEvaluating := true
        inflight := s.inflight + 1
        evalCount := s.evalCount + 1
        diamNode := (findDiameterNode m.nodes).map fun n => n.id
        polyNode := (findPolygonNode m.nodes).map fun n => n.id }
  | .change d p =>
    let s1 := { s with diameter := d, polygon := p, timer := none }
    if s1.initialized && !s1.isEvaluating &&
        (s1.diamNode.isSome || s1.polyNode.isSome) then
      { s1 with timer := some (d, p) }
    else s1
  | .fire =>
    match s.timer with
    | none => s
    | some (d, p) =>
      let s1 := { s with timer := none }
      if s1.isEvaluating then s1
      else
        { s1 with
          isEvaluating := true
          inflight := s1.inflight + 1
          evalCount := s1.evalCount + 1
          calls := s1.calls ++ [updatesFor s1.diamNode s1.polyNode d p] }
  | .complete o =>
    if !s.isEvaluating then s
    else
      let s1 := { s with isEvaluating := false, inflight := s.inflight - 1 }
      match o with
      | .failed => s1
      | .ok geoms m =>
        let s2 :=
          match geoms with
          | some gs =>
            { s1 with
              geometries := Geometry.processGeometries gs
              lastApplied := some gs
              gcode := extractGcode m s1.gcode }
          | none => s1
        { s2 with initialized := true }

/-- Run the component through a list of events. -/
def run (s : SchedState) (es : List SchedEvent) : SchedState :=
  es.foldl step s

/-- The component state right after mount, with initial prop values. -/
def initState (d p : ℚ) : SchedState :=
  { diameter := d
    polygon := p
    loadStarted := false
    initialized := false
    isEvaluating := false
    timer := none
    diamNode := none
    polyNode := none
    geometries := []
    gcode := none
    inflight := 0
    lastApplied := none
    calls := []
    evalCount := 0 }

/-- The inductive invariant of the scheduler: the number of awaited
evaluator calls matches the evaluating flag, nothing runs before the load
effect, a pending debounce timeout excludes an evaluation in flight, and
the displayed geometry set is exactly the converted result set of the
last fully applied evaluation (empty before the first one). -/
def Inv (s : SchedState) : Prop :=
  s.inflight = (if s.isEvaluating then 1 else 0) ∧
  (s.loadStarted = false →
    s.isEvaluating = false ∧ s.initialized = false ∧ s.timer = none) ∧
  (s.timer.isSome → s.isEvaluating = false) ∧
  s.geometries =
    (match s.lastApplied with
     | none => []
     | some gs => Geometry.processGeometries gs)

/-- A concrete evaluator state with one diameter-fingerprint node and one
polygon-fingerprint node, used to instantiate scenarios. -/
def sampleModular : ModularState :=
  { nodes :=
      [ { id := "a", label := none
          properties := some [{ name := "range", value := .vector2d 80 250 }] }
      , { id := "b", label := none
          properties := some [{ name := "range", value := .vector2d 3 16 }] } ]
    outputs := [] }

/-- The lost-update scenario: load and initial evaluation, a change to
(100, 5) whose debounce fires and starts an evaluation, a change to
(120, 7) arriving while that evaluation is in flight, then completion. -/
def lostUpdateTrace : List SchedEvent :=
  [ .load sampleModular
  , .complete (.ok none sampleModular)
  , .change 100 5
  , .fire
  , .change 120 7
  , .complete (.ok none sampleModular) ]

end Sched

namespace Knob

theorem jsRound_le (x : ℚ) : (jsRound x : ℚ) ≤ x + 1 / 2 :=
  Int.floor_le _

theorem sub_half_lt_jsRound (x : ℚ) : x - 1 / 2 < (jsRound x : ℚ) := by
  have h := Int.lt_floor_add_one (x + 1 / 2)
  unfold jsRound
  linarith

theorem floor_intCast_add_half (m : ℤ) : ⌊(m : ℚ) + 1 / 2⌋ = m := by
  rw [add_comm, Int.floor_add_int]
  norm_num

theorem abs_floorHalf_div_sub (y : ℚ) (p : ℕ) :
    |((⌊y * 10 ^ p + 1 / 2⌋ : ℤ) : ℚ) / 10 ^ p - y| ≤ 1 / (2 * 10 ^ p) := by
  have hp : (0 : ℚ) < 10 ^ p := by positivity
  have h1 : ((⌊y * 10 ^ p + 1 / 2⌋ : ℤ) : ℚ) ≤ y * 10 ^ p + 1 / 2 := Int.floor_le _
  have h2 : y * 10 ^ p + 1 / 2 < ((⌊y * 10 ^ p + 1 / 2⌋ : ℤ) : ℚ) + 1 :=
    Int.lt_floor_add_one _
  have key : |((⌊y * 10 ^ p + 1 / 2⌋ : ℤ) : ℚ) - y * 10 ^ p| ≤ 1 / 2 := by
    rw [abs_le]
    constructor <;> linarith
  have hy : y = y * 10 ^ p / 10 ^ p := by field_simp
  calc |((⌊y * 10 ^ p + 1 / 2⌋ : ℤ) : ℚ) / 10 ^ p - y|
      = |((⌊y * 10 ^ p + 1 / 2⌋ : ℤ) : ℚ) - y * 10 ^ p| / 10 ^ p := by
        rw [show ((⌊y * 10 ^ p + 1 / 2⌋ : ℤ) : ℚ) / 10 ^ p - y
            = (((⌊y * 10 ^ p + 1 / 2⌋ : ℤ) : ℚ) - y * 10 ^ p) / 10 ^ p by
          field_simp
          ring]
        rw [abs_div, abs_of_pos hp]
    _ ≤ (1 / 2) / 10 ^ p := by
        exact (div_le_div_iff_of_pos_right hp).mpr key
    _ = 1 / (2 * 10 ^ p) := by
        rw [div_div]

theorem toFixed_sub_abs_le (p : ℕ) (x : ℚ) :
    |toFixed p x - x| ≤ 1 / (2 * 10 ^ p) := by
  unfold toFixed
  split
  · have h := abs_floorHalf_div_sub (-x) p
    rw [show -(((⌊-x * 10 ^ p + 1 / 2⌋ : ℤ) : ℚ) / 10 ^ p) - x
        = -(((⌊-x * 10 ^ p + 1 / 2⌋ : ℤ) : ℚ) / 10 ^ p - -x) by ring, abs_neg]
    exact h
  · exact abs_floorHalf_div_sub x p

theorem toFixed_eq_self (p : ℕ) (x : ℚ) (m : ℤ) (h : x * 10 ^ p = (m : ℚ)) :
    toFixed p x = x := by
  have hp : (0 : ℚ) < 10 ^ p := by positivity
  have hx : x = (m : ℚ) / 10 ^ p := by
    field_simp [← h]
  unfold toFixed
  split
  · have h2 : -x * 10 ^ p + 1 / 2 = ((-m : ℤ) : ℚ) + 1 / 2 := by
      push_cast
      linarith
    rw [h2, floor_intCast_add_half]
    push_cast
    rw [hx]
    ring
  · have h2 : x * 10 ^ p + 1 / 2 = (m : ℚ) + 1 / 2 := by rw [h]
    rw [h2, floor_intCast_add_half, ← hx]

theorem mul_pow_ten_int (q : ℚ) (p : ℕ) (h : q.den ∣ 10 ^ p) :
    ∃ m : ℤ, q * 10 ^ p = (m : ℚ) := by
  obtain ⟨c, hc⟩ := h
  refine ⟨q.num * (c : ℤ), ?_⟩
  have hdenpos : (0 : ℚ) < (q.den : ℚ) := by exact_mod_cast q.den_pos
  have h10 : ((10 : ℚ)) ^ p = (q.den : ℚ) * (c : ℚ) := by
    exact_mod_cast congrArg (fun n : ℕ => (n : ℚ)) hc
  have hq : q * (q.den : ℚ) = (q.num : ℚ) := by
    have hqd : ((q.num : ℚ) / (q.den : ℚ)) * (q.den : ℚ) = (q.num : ℚ) :=
      div_mul_cancel₀ _ hdenpos.ne'
    rwa [Rat.num_div_den] at hqd
  push_cast
  rw [h10, ← mul_assoc, hq]

theorem handleMouseMove_none (s : DragState) (x : ℚ) (h : s.step = none) :
    handleMouseMove s x =
      toFixed 2
        (min s.max (max s.min (s.startValue + (x - s.startX) * ((s.max - s.min) / 200)))) := by
  unfold handleMouseMove
  rw [h]

theorem handleMouseMove_some (s : DragState) (x st : ℚ) (h : s.step = some st)
    (h0 : st ≠ 0) :
    handleMouseMove s x =
      toFixed (fracDigits st)
        ((jsRound ((min s.max (max s.min
          (s.startValue + (x - s.startX) * ((s.max - s.min) / 200)))) / st) : ℚ) * st) := by
  unfold handleMouseMove
  rw [h]
  simp [h0]

/-- Specialization of `handleMouseMove_some` to a literal drag state, for
concrete evaluations. -/
theorem handleMouseMove_eval (a v mn mx x st : ℚ) (h0 : st ≠ 0) :
    handleMouseMove ⟨a, v, mn, mx, some st⟩ x =
      toFixed (fracDigits st)
        ((jsRound ((min mx (max mn (v + (x - a) * ((mx - mn) / 200)))) / st) : ℚ) * st) :=
  handleMouseMove_some ⟨a, v, mn, mx, some st⟩ x st rfl h0

theorem fracDigits_den_one (q : ℚ) (h : q.den = 1) : fracDigits q = 0 := by
  unfold fracDigits
  simp only [h]
  decide

theorem fracDigits_half : fracDigits (1 / 2 : ℚ) = 1 := by
  unfold fracDigits
  simp only [show ((1 : ℚ) / 2).den = 2 by norm_num]
  decide

end Knob

/-- Claim C3: as stated it is false.  At the drag state with
`min = 5`, `max = 10`, `step = 4`, anchor value 5, and a pointer that has
not moved, the clamped value 5 quantizes to
`Math.round(5 / 4) * 4 = 4 < min`: the emitted value 4 lies outside
`[min, max]`. -/
theorem c3_counterexample :
    Knob.handleMouseMove ⟨0, 5, 5, 10, some 4⟩ 0 = 4 ∧
    ¬(5 ≤ Knob.handleMouseMove ⟨0, 5, 5, 10, some 4⟩ 0) := by
  have key : Knob.handleMouseMove ⟨0, 5, 5, 10, some 4⟩ 0 = 4 := by
    rw [Knob.handleMouseMove_eval 0 5 5 10 0 4 (by norm_num)]
    rw [show min (10 : ℚ) (max (5 : ℚ) (5 + (0 - 0) * ((10 - 5) / 200))) = 5 by
      norm_num]
    rw [show Knob.jsRound ((5 : ℚ) / 4) = 1 by
      unfold Knob.jsRound
      norm_num [Int.floor_eq_iff]]
    rw [Knob.fracDigits_den_one 4 (by norm_num)]
    rw [show ((1 : ℤ) : ℚ) * 4 = 4 by norm_num]
    exact Knob.toFixed_eq_self 0 4 4 (by norm_num)
  exact ⟨key, by rw [key]; norm_num⟩

/-- Claim C3 (amended): for every drag state with `min < max` and every
pointer position, the emitted value lies within `[min, max]` only up to
the final rounding: within `[min - 0.005, max + 0.005]` when no step is
set (2-digit rounding of the clamped value), and within
`[min - step / 2, max + step / 2]` when a positive decimal step is set —
quantization may overshoot the range by up to half a step.  The
multiple-of-step part of the claim holds exactly (hence well within the
1e-6 tolerance): with a step whose denominator divides the rounding
scale, the emitted value is an integer multiple of the step. -/
theorem c3_knob_value_bounds (s : Knob.DragState) (x : ℚ)
    (hr : s.min < s.max) :
    (s.step = none →
      s.min - 1 / 200 ≤ Knob.handleMouseMove s x ∧
      Knob.handleMouseMove s x ≤ s.max + 1 / 200) ∧
    (∀ st : ℚ, s.step = some st → 0 < st →
      st.den ∣ 10 ^ Knob.fracDigits st →
      (∃ k : ℤ, Knob.handleMouseMove s x = (k : ℚ) * st) ∧
      s.min - st / 2 ≤ Knob.handleMouseMove s x ∧
      Knob.handleMouseMove s x ≤ s.max + st / 2) := by
  have hc1 : s.min ≤ min s.max (max s.min
      (s.startValue + (x - s.startX) * ((s.max - s.min) / 200))) :=
    le_min hr.le (le_max_left _ _)
  have hc2 : min s.max (max s.min
      (s.startValue + (x - s.startX) * ((s.max - s.min) / 200))) ≤ s.max :=
    min_le_left _ _
  constructor
  · intro hstep
    rw [Knob.handleMouseMove_none s x hstep]
    have hb := Knob.toFixed_sub_abs_le 2 (min s.max (max s.min
      (s.startValue + (x - s.startX) * ((s.max - s.min) / 200))))
    rw [abs_le] at hb
    have h200 : (1 : ℚ) / (2 * 10 ^ 2) = 1 / 200 := by norm_num
    rw [h200] at hb
    constructor
    · linarith [hb.1, hc1]
    · linarith [hb.2, hc2]
  · intro st hstep hpos hdvd
    rw [Knob.handleMouseMove_some s x st hstep hpos.ne']
    set c := min s.max (max s.min
      (s.startValue + (x - s.startX) * ((s.max - s.min) / 200))) with hcdef
    have hy : c / st * st = c := div_mul_cancel₀ _ hpos.ne'
    obtain ⟨m, hm⟩ := Knob.mul_pow_ten_int st _ hdvd
    have hint : ((Knob.jsRound (c / st) : ℚ) * st) * 10 ^ Knob.fracDigits st
        = ((Knob.jsRound (c / st) * m : ℤ) : ℚ) := by
      push_cast
      rw [mul_assoc, hm]
    rw [Knob.toFixed_eq_self _ _ _ hint]
    have h1 := Knob.jsRound_le (c / st)
    have h2 := Knob.sub_half_lt_jsRound (c / st)
    have h1' : (Knob.jsRound (c / st) : ℚ) * st ≤ (c / st + 1 / 2) * st :=
      mul_le_mul_of_nonneg_right h1 hpos.le
    have h2' : (c / st - 1 / 2) * st ≤ (Knob.jsRound (c / st) : ℚ) * st :=
      mul_le_mul_of_nonneg_right h2.le hpos.le
    have e1 : (c / st + 1 / 2) * st = c + st / 2 := by
      rw [add_mul, hy]
      ring
    have e2 : (c / st - 1 / 2) * st = c - st / 2 := by
      rw [sub_mul, hy]
      ring
    refine ⟨⟨Knob.jsRound (c / st), rfl⟩, ?_, ?_⟩
    · linarith [hc1]
    · linarith [hc2]

/-- Witness for the amended claim C3: a concrete drag over `[0, 10]` with
step `0.5`, anchored at value 3, pointer moved 37px: the emitted value is
an exact multiple of the step and lies within the half-step-widened
range. -/
theorem c3_knob_value_bounds_witness :
    (0 : ℚ) < 10 ∧ (0 : ℚ) < 1 / 2 ∧
    ((1 : ℚ) / 2).den ∣ 10 ^ Knob.fracDigits (1 / 2) ∧
    (∃ k : ℤ, Knob.handleMouseMove ⟨0, 3, 0, 10, some (1 / 2)⟩ 37
      = (k : ℚ) * (1 / 2)) ∧
    (0 : ℚ) - (1 / 2) / 2 ≤ Knob.handleMouseMove ⟨0, 3, 0, 10, some (1 / 2)⟩ 37 ∧
    Knob.handleMouseMove ⟨0, 3, 0, 10, some (1 / 2)⟩ 37 ≤ 10 + (1 / 2) / 2 := by
  have hdvd : ((1 : ℚ) / 2).den ∣ 10 ^ Knob.fracDigits (1 / 2) := by
    rw [show ((1 : ℚ) / 2).den = 2 by norm_num, Knob.fracDigits_half]
    norm_num
  have h := c3_knob_value_bounds ⟨0, 3, 0, 10, some (1 / 2)⟩ 37 (by norm_num)
  have h2 := h.2 (1 / 2) rfl (by norm_num) hdvd
  exact ⟨by norm_num, by norm_num, hdvd, h2.1, h2.2.1, h2.2.2⟩

/-- Claim C4: the drag-to-value mapping of the Knob equals the reference
definition of the specification (round-to-precision of quantize of clamp,
with the 200px-per-range sensitivity), for every configured step that is
nonzero (a zero step is falsy in the source and disables quantization);
and the concrete scenario holds: a drag from `pointerX = 100` anchored at
value 50 over `[0, 100]` with step 1 emits 75 at `pointerX = 150`. -/
theorem c4_drag_mapping_matches_reference (s : Knob.DragState) (x : ℚ)
    (h : ∀ st, s.step = some st → st ≠ 0) :
    Knob.handleMouseMove s x = Knob.specUpdate s x ∧
    Knob.handleMouseMove ⟨100, 50, 0, 100, some 1⟩ 150 = 75 := by
  have key : Knob.handleMouseMove ⟨100, 50, 0, 100, some 1⟩ 150 = 75 := by
    rw [Knob.handleMouseMove_eval 100 50 0 100 150 1 one_ne_zero]
    rw [show min (100 : ℚ) (max (0 : ℚ) (50 + (150 - 100) * ((100 - 0) / 200))) = 75 by
      norm_num]
    rw [show Knob.jsRound ((75 : ℚ) / 1) = 75 by
      unfold Knob.jsRound
      norm_num [Int.floor_eq_iff]]
    rw [Knob.fracDigits_den_one 1 (by norm_num)]
    rw [show ((75 : ℤ) : ℚ) * 1 = 75 by norm_num]
    exact Knob.toFixed_eq_self 0 75 75 (by norm_num)
  refine ⟨?_, key⟩
  cases hstep : s.step with
  | none =>
    unfold Knob.handleMouseMove Knob.specUpdate
    rw [hstep]
  | some st =>
    have h0 := h st hstep
    unfold Knob.handleMouseMove Knob.specUpdate
    rw [hstep]
    simp [h0]

/-- Witness for claim C4 at the concrete scenario drag state. -/
theorem c4_drag_mapping_matches_reference_witness :
    Knob.handleMouseMove ⟨100, 50, 0, 100, some 1⟩ 150
      = Knob.specUpdate ⟨100, 50, 0, 100, some 1⟩ 150 ∧
    Knob.handleMouseMove ⟨100, 50, 0, 100, some 1⟩ 150 = 75 :=
  c4_drag_mapping_matches_reference ⟨100, 50, 0, 100, some 1⟩ 150
    (fun st hst => by
      have hst1 : st = 1 := by simpa using hst.symm
      simp [hst1])

/-- Claim C10: the mouse move handler and the touch move handler of the
Knob emit exactly the same value for every drag state and every pointer
x-coordinate: the two input paths are the same function of `clientX`. -/
theorem c10_mouse_touch_equivalence (s : Knob.DragState) (x : ℚ) :
    Knob.handleMouseMove s x = Knob.handleTouchMove s x := rfl

namespace Gauge

theorem tickValue_sub (mn mx : ℚ) (n i j : ℕ) :
    tickValue mn mx n j - tickValue mn mx n i =
      (((j : ℚ) - (i : ℚ)) / ((n : ℚ) - 1)) * (mx - mn) := by
  unfold tickValue
  ring

theorem tickAngle_rel (value mn mx : ℚ) (n i : ℕ) (h : mn < mx) :
    tickAngle value mn mx n i =
      (tickValue mn mx n i - value) / (mx - mn) * arcAngle := by
  have h0 : mx - mn ≠ 0 := by
    intro hz
    linarith
  unfold tickAngle tickValue
  field_simp
  ring

theorem isCurrent_nearest (value mn mx : ℚ) (n i j : ℕ)
    (hmn : mn < mx) (hn : 2 ≤ n)
    (hcur : isCurrentTick value mn mx n i = true) :
    |tickValue mn mx n i - value| ≤ |tickValue mn mx n j - value| := by
  have hn1 : (1 : ℚ) ≤ (n : ℚ) - 1 := by
    have h2 : (2 : ℚ) ≤ (n : ℚ) := by exact_mod_cast hn
    linarith
  have hn1pos : (0 : ℚ) < (n : ℚ) - 1 := by linarith
  have hmx : (0 : ℚ) < mx - mn := by linarith
  unfold isCurrentTick at hcur
  rw [decide_eq_true_eq] at hcur
  by_cases hij : j = i
  · rw [hij]
  · have hone : (1 : ℚ) ≤ |(j : ℚ) - (i : ℚ)| := by
      have hz : ((j : ℤ) - (i : ℤ)) ≠ 0 := by
        intro hz0
        exact hij (by exact_mod_cast sub_eq_zero.mp hz0)
      have h1 : (1 : ℤ) ≤ |(j : ℤ) - (i : ℤ)| := Int.one_le_abs hz
      calc (1 : ℚ) ≤ ((|(j : ℤ) - (i : ℤ)| : ℤ) : ℚ) := by exact_mod_cast h1
        _ = |(j : ℚ) - (i : ℚ)| := by
            rw [Int.cast_abs]
            push_cast
            rfl
    have hd : |tickValue mn mx n j - tickValue mn mx n i|
        = |(j : ℚ) - (i : ℚ)| / ((n : ℚ) - 1) * (mx - mn) := by
      rw [tickValue_sub, abs_mul, abs_div, abs_of_pos hn1pos, abs_of_pos hmx]
    have hsep : (mx - mn) / ((n : ℚ) - 1)
        ≤ |tickValue mn mx n j - tickValue mn mx n i| := by
      rw [hd, div_mul_eq_mul_div, div_le_div_iff_of_pos_right hn1pos]
      exact le_mul_of_one_le_left hmx.le hone
    have htri : |tickValue mn mx n j - tickValue mn mx n i|
        ≤ |tickValue mn mx n j - value| + |tickValue mn mx n i - value| := by
      have h3 := abs_sub_le (tickValue mn mx n j) value (tickValue mn mx n i)
      rw [abs_sub_comm value (tickValue mn mx n i)] at h3
      exact h3
    linarith [hcur, hsep, htri]

theorem isCurrent_angle (value mn mx : ℚ) (n i : ℕ)
    (hmn : mn < mx) (hn : 2 ≤ n)
    (hcur : isCurrentTick value mn mx n i = true) :
    |tickAngle value mn mx n i| < 60 / ((n : ℚ) - 1) := by
  have hn1 : (1 : ℚ) ≤ (n : ℚ) - 1 := by
    have h2 : (2 : ℚ) ≤ (n : ℚ) := by exact_mod_cast hn
    linarith
  have hn1pos : (0 : ℚ) < (n : ℚ) - 1 := by linarith
  have hmx : (0 : ℚ) < mx - mn := by linarith
  unfold isCurrentTick at hcur
  rw [decide_eq_true_eq] at hcur
  have harc : |arcAngle| = arcAngle := abs_of_pos (by unfold arcAngle; norm_num)
  have habs : |tickAngle value mn mx n i|
      = |tickValue mn mx n i - value| * (arcAngle / (mx - mn)) := by
    rw [tickAngle_rel value mn mx n i hmn, abs_mul, abs_div, abs_of_pos hmx, harc]
    ring
  rw [habs]
  have hfac : (0 : ℚ) < arcAngle / (mx - mn) := by
    unfold arcAngle
    positivity
  have hlt := mul_lt_mul_of_pos_right hcur hfac
  refine lt_of_lt_of_le hlt (le_of_eq ?_)
  unfold arcAngle
  field_simp
  ring

end Gauge

/-- Claim C6: as stated it is false.  With `min = 0`, `max = 10`,
`subStep = 5` (3 ticks at values 0, 5, 10) and `value = 1`, tick 0 is the
nearest tick and is marked `isCurrent`, but its displayed angle is
-12 degrees, far outside the claimed 0 plus/minus 0.5 degree band: the
current tick sits at angle `-(value offset ratio) * arcAngle`, not at 0. -/
theorem c6_counterexample :
    Gauge.isCurrentTick 1 0 10 (Gauge.tickCount 0 10 (some 5)) 0 = true ∧
    |Gauge.tickValue 0 10 (Gauge.tickCount 0 10 (some 5)) 0 - 1|
      ≤ |Gauge.tickValue 0 10 (Gauge.tickCount 0 10 (some 5)) 1 - 1| ∧
    |Gauge.tickValue 0 10 (Gauge.tickCount 0 10 (some 5)) 0 - 1|
      ≤ |Gauge.tickValue 0 10 (Gauge.tickCount 0 10 (some 5)) 2 - 1| ∧
    ¬(|Gauge.tickAngle 1 0 10 (Gauge.tickCount 0 10 (some 5)) 0| ≤ 1 / 2) := by
  have hN : Gauge.tickCount 0 10 (some 5) = 3 := by
    show (if (5 : ℚ) ≠ 0 then (Knob.jsRound (((10 : ℚ) - 0) / 5) + 1).toNat else 41) = 3
    rw [if_pos (by norm_num : (5 : ℚ) ≠ 0)]
    rw [show Knob.jsRound ((10 - 0 : ℚ) / 5) = 2 by
      unfold Knob.jsRound
      norm_num [Int.floor_eq_iff]]
    rfl
  rw [hN]
  have hv0 : Gauge.tickValue 0 10 3 0 = 0 := by
    unfold Gauge.tickValue
    norm_num
  have hv1 : Gauge.tickValue 0 10 3 1 = 5 := by
    unfold Gauge.tickValue
    norm_num
  have hv2 : Gauge.tickValue 0 10 3 2 = 10 := by
    unfold Gauge.tickValue
    norm_num
  have ha : Gauge.tickAngle 1 0 10 3 0 = -12 := by
    unfold Gauge.tickAngle Gauge.arcAngle
    norm_num
  refine ⟨?_, ?_, ?_, ?_⟩
  · unfold Gauge.isCurrentTick
    rw [decide_eq_true_eq, hv0]
    rw [show |(0 : ℚ) - 1| = 1 by norm_num [abs_sub_comm]]
    norm_num
  · rw [hv0, hv1]
    norm_num [abs_sub_comm]
  · rw [hv0, hv2]
    norm_num [abs_sub_comm]
  · rw [ha]
    norm_num [abs_of_nonpos]

/-- Claim C6 (amended): for every gauge input with `min < max` and at
least two ticks, any tick marked `isCurrent` is a tick whose nominal
value is nearest to `value`, and its displayed angle is within half the
angular tick spacing of 0 — that is, strictly within
`60 / (tickCount - 1)` degrees (1.5 degrees for the default 41 ticks),
not within the claimed fixed 0.5 degrees. -/
theorem c6_current_tick_nearest (value mn mx : ℚ) (ss : Option ℚ) (i : ℕ)
    (hmn : mn < mx) (hn : 2 ≤ Gauge.tickCount mn mx ss)
    (hcur : Gauge.isCurrentTick value mn mx (Gauge.tickCount mn mx ss) i = true) :
    (∀ j, |Gauge.tickValue mn mx (Gauge.tickCount mn mx ss) i - value|
      ≤ |Gauge.tickValue mn mx (Gauge.tickCount mn mx ss) j - value|) ∧
    |Gauge.tickAngle value mn mx (Gauge.tickCount mn mx ss) i|
      < 60 / ((Gauge.tickCount mn mx ss : ℚ) - 1) :=
  ⟨fun j => Gauge.isCurrent_nearest value mn mx _ i j hmn hn hcur,
   Gauge.isCurrent_angle value mn mx _ i hmn hn hcur⟩

/-- Witness for the amended claim C6 at the 3-tick gauge with
`value = 1`: tick 0 is current, nearest (shown against tick 2) and within
half a spacing (30 degrees) of the center. -/
theorem c6_current_tick_nearest_witness :
    |Gauge.tickValue 0 10 (Gauge.tickCount 0 10 (some 5)) 0 - 1|
      ≤ |Gauge.tickValue 0 10 (Gauge.tickCount 0 10 (some 5)) 2 - 1| ∧
    |Gauge.tickAngle 1 0 10 (Gauge.tickCount 0 10 (some 5)) 0|
      < 60 / ((Gauge.tickCount 0 10 (some 5) : ℚ) - 1) := by
  have hN : Gauge.tickCount 0 10 (some 5) = 3 := by
    show (if (5 : ℚ) ≠ 0 then (Knob.jsRound (((10 : ℚ) - 0) / 5) + 1).toNat else 41) = 3
    rw [if_pos (by norm_num : (5 : ℚ) ≠ 0)]
    rw [show Knob.jsRound ((10 - 0 : ℚ) / 5) = 2 by
      unfold Knob.jsRound
      norm_num [Int.floor_eq_iff]]
    rfl
  have hcur : Gauge.isCurrentTick 1 0 10 (Gauge.tickCount 0 10 (some 5)) 0 = true := by
    rw [hN]
    unfold Gauge.isCurrentTick
    rw [decide_eq_true_eq]
    rw [show Gauge.tickValue 0 10 3 0 = 0 by unfold Gauge.tickValue; norm_num]
    rw [show |(0 : ℚ) - 1| = 1 by norm_num [abs_sub_comm]]
    norm_num
  have h := c6_current_tick_nearest 1 0 10 (some 5) 0 (by norm_num)
    (by rw [hN]; norm_num) hcur
  exact ⟨h.1 2, h.2⟩

/-- Claim C7: as stated it is false.  Opacity is
`max(0, 1 - |angle| / 60)`: it reaches 0 already at 60 degrees, not at
the 90 degree visibility threshold.  The default gauge over `[0, 10]`
with `value = 0` produces the tick at 75 degrees (it is kept, since only
ticks beyond 90 degrees are dropped) with opacity 0, while the claimed
linear-to-the-threshold law would give it opacity 1/6. -/
theorem c7_counterexample :
    Gauge.mkGaugeTick 0 0 10 none 41 25 ∈ Gauge.fanGaugeTicks 0 0 10 none none ∧
    (Gauge.mkGaugeTick 0 0 10 none 41 25).angle = 75 ∧
    (Gauge.mkGaugeTick 0 0 10 none 41 25).opacity = 0 ∧
    Gauge.claimOpacity ((Gauge.mkGaugeTick 0 0 10 none 41 25).angle) ≠
      (Gauge.mkGaugeTick 0 0 10 none 41 25).opacity := by
  have hang : Gauge.tickAngle 0 0 10 41 25 = 75 := by
    unfold Gauge.tickAngle Gauge.arcAngle
    push_cast
    norm_num
  have habs75 : |(75 : ℚ)| = 75 := abs_of_pos (by norm_num)
  have hangle : (Gauge.mkGaugeTick 0 0 10 none 41 25).angle = 75 := by
    unfold Gauge.mkGaugeTick
    exact hang
  have hop : (Gauge.mkGaugeTick 0 0 10 none 41 25).opacity = 0 := by
    unfold Gauge.mkGaugeTick
    show max 0 (1 - |Gauge.tickAngle 0 0 10 41 25| / 60) = 0
    rw [hang, habs75]
    norm_num [max_def]
  have hmem : Gauge.mkGaugeTick 0 0 10 none 41 25 ∈ Gauge.fanGaugeTicks 0 0 10 none none := by
    unfold Gauge.fanGaugeTicks
    rw [show Gauge.tickCount 0 10 none = 41 from rfl]
    rw [List.mem_filterMap]
    refine ⟨25, by decide, ?_⟩
    rw [if_neg]
    rw [hang]
    norm_num
  refine ⟨hmem, hangle, hop, ?_⟩
  rw [hangle, hop]
  unfold Gauge.claimOpacity
  rw [habs75]
  norm_num [max_def]

/-- Claim C7 (amended): every tick the gauge produces has absolute angle
at most 90 degrees (ticks beyond 90 degrees are omitted), and its opacity
is `max(0, 1 - |angle| / 60)`: it decreases linearly with the absolute
angle, reaching 0 at 60 degrees and staying 0 from there to the 90 degree
drop threshold — not reaching 0 exactly at the threshold.  Conversely
every tick index whose angle is within 90 degrees contributes its
descriptor to the produced sequence. -/
theorem c7_opacity_model (value mn mx : ℚ) (ss ms : Option ℚ) :
    (∀ t, t ∈ Gauge.fanGaugeTicks value mn mx ss ms →
      |t.angle| ≤ 90 ∧ t.opacity = max 0 (1 - |t.angle| / 60)) ∧
    (∀ i, i < Gauge.tickCount mn mx ss →
      |Gauge.tickAngle value mn mx (Gauge.tickCount mn mx ss) i| ≤ 90 →
      Gauge.mkGaugeTick value mn mx ms (Gauge.tickCount mn mx ss) i ∈
        Gauge.fanGaugeTicks value mn mx ss ms) := by
  constructor
  · intro t ht
    unfold Gauge.fanGaugeTicks at ht
    rw [List.mem_filterMap] at ht
    obtain ⟨i, _, hfi⟩ := ht
    by_cases hang : |Gauge.tickAngle value mn mx (Gauge.tickCount mn mx ss) i| > 90
    · rw [if_pos hang] at hfi
      exact absurd hfi (by simp)
    · rw [if_neg hang] at hfi
      obtain rfl := Option.some.inj hfi
      push_neg at hang
      exact ⟨hang, rfl⟩
  · intro i hi hang
    unfold Gauge.fanGaugeTicks
    rw [List.mem_filterMap]
    exact ⟨i, List.mem_range.mpr hi, by rw [if_neg (not_lt.mpr hang)]⟩

/-- Witness for the amended claim C7: the center tick of the gauge at
`value = 5` over `[0, 10]` (tick 20 of 41, angle 0) is produced, and its
opacity follows the `max(0, 1 - |angle| / 60)` law. -/
theorem c7_opacity_model_witness :
    Gauge.mkGaugeTick 5 0 10 (some 5) (Gauge.tickCount 0 10 none) 20 ∈
      Gauge.fanGaugeTicks 5 0 10 none (some 5) ∧
    (Gauge.mkGaugeTick 5 0 10 (some 5) (Gauge.tickCount 0 10 none) 20).opacity =
      max 0 (1 - |(Gauge.mkGaugeTick 5 0 10 (some 5) (Gauge.tickCount 0 10 none) 20).angle| / 60) := by
  have h := c7_opacity_model 5 0 10 none (some 5)
  have hang : |Gauge.tickAngle 5 0 10 (Gauge.tickCount 0 10 none) 20| ≤ 90 := by
    rw [show Gauge.tickCount 0 10 none = 41 from rfl]
    rw [show Gauge.tickAngle 5 0 10 41 20 = 0 by
      unfold Gauge.tickAngle Gauge.arcAngle
      push_cast
      norm_num]
    norm_num
  have hmem := h.2 20 (by rw [show Gauge.tickCount 0 10 none = 41 from rfl]; norm_num) hang
  exact ⟨hmem, (h.1 _ hmem).2⟩

namespace Geometry

theorem flattenVec3_length (l : List Vec3) :
    (flattenVec3 l).length = 3 * l.length := by
  induction l with
  | nil => rfl
  | cons v r ih =>
    unfold flattenVec3
    simp only [List.length_cons, ih]
    ring

theorem flattenFaces_length (l : List (ℕ × ℕ × ℕ)) :
    (flattenFaces l).length = 3 * l.length := by
  induction l with
  | nil => rfl
  | cons f r ih =>
    obtain ⟨a, b, c⟩ := f
    unfold flattenFaces
    simp only [List.length_cons, ih]
    ring

theorem applyMatrix4_identity (v : Vec3) :
    applyMatrix4 identityTransform v = v := by
  obtain ⟨x, y, z⟩ := v
  unfold applyMatrix4 identityTransform matAt
  simp only [List.getD_cons_zero, List.getD_cons_succ]
  norm_num

theorem applyMatrix4_translation (tx ty tz : ℚ) (v : Vec3) :
    applyMatrix4 (translationTransform tx ty tz) v =
      ⟨v.x + tx, v.y + ty, v.z + tz⟩ := by
  obtain ⟨x, y, z⟩ := v
  unfold applyMatrix4 translationTransform matAt
  simp only [List.getD_cons_zero, List.getD_cons_succ]
  norm_num

theorem map_applyMatrix4_identity (l : List Vec3) :
    l.map (applyMatrix4 identityTransform) = l := by
  rw [show applyMatrix4 identityTransform = id from funext applyMatrix4_identity,
    List.map_id]

end Geometry

/-- Claim C8: the geometry converter. A Mesh with 4 vertices, no normals
and 2 triangular faces yields a position buffer of length 12, an index
buffer of length 6 and no normal buffer; the identity transform leaves
all positions unchanged; a pure translation shifts every position by
exactly that translation; a Curve yields only a (transformed) position
buffer; an unrecognized variant converts to `null` and is dropped from
the processed output set. -/
theorem c8_geometry_converter (vs cvs : List Geometry.Vec3)
    (fs : List (ℕ × ℕ × ℕ)) (t : List ℚ) (tx ty tz : ℚ)
    (hv : vs.length = 4) (hf : fs.length = 2) :
    (∃ g, Geometry.convertGeometryInterop (.mesh vs none (some fs)) t = some g ∧
      g.position.length = 12 ∧ g.normal = none ∧
      g.index = some (Geometry.flattenFaces fs) ∧
      (Geometry.flattenFaces fs).length = 6) ∧
    Geometry.convertGeometryInterop (.mesh vs none (some fs))
        Geometry.identityTransform =
      some ⟨Geometry.flattenVec3 vs, none, some (Geometry.flattenFaces fs)⟩ ∧
    Geometry.convertGeometryInterop (.mesh vs none (some fs))
        (Geometry.translationTransform tx ty tz) =
      some ⟨Geometry.flattenVec3 (vs.map fun v => ⟨v.x + tx, v.y + ty, v.z + tz⟩),
        none, some (Geometry.flattenFaces fs)⟩ ∧
    Geometry.convertGeometryInterop (.curve cvs) t =
      some ⟨Geometry.flattenVec3 (cvs.map (Geometry.applyMatrix4 t)), none, none⟩ ∧
    Geometry.convertGeometryInterop .unrecognized t = none ∧
    (∀ rest, Geometry.processGeometries
        ((Geometry.GeometryInterop.unrecognized, t) :: rest) =
      Geometry.processGeometries rest) := by
  refine ⟨⟨_, rfl, ?_, rfl, rfl, ?_⟩, ?_, ?_, rfl, rfl, ?_⟩
  · rw [Geometry.flattenVec3_length, List.length_map, hv]
  · rw [Geometry.flattenFaces_length, hf]
  · have hmap := Geometry.map_applyMatrix4_identity vs
    simp only [Geometry.convertGeometryInterop, hmap, Option.map_none',
      Option.map_some']
  · have hmap : vs.map (Geometry.applyMatrix4 (Geometry.translationTransform tx ty tz))
        = vs.map fun v => (⟨v.x + tx, v.y + ty, v.z + tz⟩ : Geometry.Vec3) :=
      List.map_congr_left fun v _ => Geometry.applyMatrix4_translation tx ty tz v
    simp only [Geometry.convertGeometryInterop, hmap, Option.map_none',
      Option.map_some']
  · intro rest
    unfold Geometry.processGeometries
    rw [List.filterMap_cons]
    rfl

/-- Witness for claim C8 at a concrete tetrahedron-like mesh: 4 vertices,
2 triangular faces, identity and translation transforms. -/
theorem c8_geometry_converter_witness :
    Geometry.sampleVertices.length = 4 ∧ Geometry.sampleFaces.length = 2 ∧
    Geometry.convertGeometryInterop
        (.mesh Geometry.sampleVertices none (some Geometry.sampleFaces))
        Geometry.identityTransform =
      some ⟨Geometry.flattenVec3 Geometry.sampleVertices, none,
        some (Geometry.flattenFaces Geometry.sampleFaces)⟩ ∧
    Geometry.convertGeometryInterop
        (.mesh Geometry.sampleVertices none (some Geometry.sampleFaces))
        (Geometry.translationTransform 1 2 3) =
      some ⟨Geometry.flattenVec3 (Geometry.sampleVertices.map
        fun v => ⟨v.x + 1, v.y + 2, v.z + 3⟩), none,
        some (Geometry.flattenFaces Geometry.sampleFaces)⟩ ∧
    (Geometry.flattenFaces Geometry.sampleFaces).length = 6 := by
  have h := c8_geometry_converter Geometry.sampleVertices []
    Geometry.sampleFaces Geometry.identityTransform 1 2 3 rfl rfl
  obtain ⟨⟨g, _, _, _, _, hlen⟩, hid, htr, _, _, _⟩ := h
  exact ⟨rfl, rfl, hid, htr, hlen⟩


namespace Sched

theorem run_nil (s : SchedState) : run s [] = s := rfl

theorem run_cons (s : SchedState) (e : SchedEvent) (es : List SchedEvent) :
    run s (e :: es) = run (step s e) es := rfl

theorem step_load_started {s : SchedState} {m : ModularState}
    (hl : s.loadStarted = true) : step s (.load m) = s := by
  simp only [step]
  rw [if_pos hl]

theorem step_load_fresh {s : SchedState} {m : ModularState}
    (hl : s.loadStarted = false) :
    step s (.load m) =
      { s with
        loadStarted := true
        isEvaluating := true
        inflight := s.inflight + 1
        evalCount := s.evalCount + 1
        diamNode := (findDiameterNode m.nodes).map fun n => n.id
        polyNode := (findPolygonNode m.nodes).map fun n => n.id } := by
  simp only [step]
  rw [if_neg (by simp [hl])]

theorem step_change (s : SchedState) (d p : ℚ) :
    step s (.change d p) =
      if s.initialized && !s.isEvaluating &&
          (s.diamNode.isSome || s.polyNode.isSome) then
        { s with diameter := d, polygon := p, timer := some (d, p) }
      else
        { s with diameter := d, polygon := p, timer := none } := by
  simp only [step]

theorem step_change_sched {s : SchedState} (d p : ℚ)
    (hinit : s.initialized = true) (hev : s.isEvaluating = false)
    (hnode : (s.diamNode.isSome || s.polyNode.isSome) = true) :
    step s (.change d p) =
      { s with diameter := d, polygon := p, timer := some (d, p) } := by
  rw [step_change, if_pos (by rw [hinit, hev, hnode]; rfl)]

theorem step_fire_none {s : SchedState} (ht : s.timer = none) :
    step s .fire = s := by
  simp only [step]
  rw [ht]

theorem step_fire_busy {s : SchedState} {d p : ℚ}
    (ht : s.timer = some (d, p)) (hev : s.isEvaluating = true) :
    step s .fire = { s with timer := none } := by
  simp only [step]
  rw [ht]
  simp only [hev, if_true]

theorem step_fire_go {s : SchedState} {d p : ℚ}
    (ht : s.timer = some (d, p)) (hev : s.isEvaluating = false) :
    step s .fire =
      { s with
        timer := none
        isEvaluating := true
        inflight := s.inflight + 1
        evalCount := s.evalCount + 1
        calls := s.calls ++ [updatesFor s.diamNode s.polyNode d p] } := by
  simp only [step]
  rw [ht]
  simp only [hev, Bool.false_eq_true, if_false]

theorem step_complete_idle {s : SchedState} {o : EvalOutcome}
    (hev : s.isEvaluating = false) : step s (.complete o) = s := by
  simp only [step]
  rw [if_pos (by rw [hev]; rfl)]

theorem step_complete_failed {s : SchedState}
    (hev : s.isEvaluating = true) :
    step s (.complete .failed) =
      { s with isEvaluating := false, inflight := s.inflight - 1 } := by
  simp only [step]
  rw [if_neg (by rw [hev]; simp)]

theorem step_complete_ok_none {s : SchedState} {m : ModularState}
    (hev : s.isEvaluating = true) :
    step s (.complete (.ok none m)) =
      { s with
        isEvaluating := false
        inflight := s.inflight - 1
        initialized := true } := by
  simp only [step]
  rw [if_neg (by rw [hev]; simp)]

theorem step_complete_ok_some {s : SchedState} {m : ModularState}
    {gs : List (Geometry.GeometryInterop × List ℚ)}
    (hev : s.isEvaluating = true) :
    step s (.complete (.ok (some gs) m)) =
      { s with
        isEvaluating := false
        inflight := s.inflight - 1
        initialized := true
        geometries := Geometry.processGeometries gs
        lastApplied := some gs
        gcode := extractGcode m s.gcode } := by
  simp only [step]
  rw [if_neg (by rw [hev]; simp)]

end Sched

namespace Sched

theorem inv_init (d p : ℚ) : Inv (initState d p) := by
  refine ⟨rfl, fun _ => ⟨rfl, rfl, rfl⟩, ?_, rfl⟩
  intro h
  simp [initState] at h

theorem inv_step (s : SchedState) (e : SchedEvent) (h : Inv s) :
    Inv (step s e) := by
  obtain ⟨h1, h2, h3, h4⟩ := h
  cases e with
  | load m =>
    cases hl : s.loadStarted with
    | true =>
      rw [step_load_started hl]
      exact ⟨h1, h2, h3, h4⟩
    | false =>
      obtain ⟨he, hi, ht⟩ := h2 hl
      rw [step_load_fresh hl]
      rw [he] at h1
      simp only [Bool.false_eq_true, if_false] at h1
      refine ⟨by simp [h1], by simp, ?_, h4⟩
      intro htm
      simp only [ht, Option.isSome_none] at htm
      cases htm
  | change d p =>
    rw [step_change]
    by_cases hcond : (s.initialized && !s.isEvaluating &&
        (s.diamNode.isSome || s.polyNode.isSome)) = true
    · rw [if_pos hcond]
      simp only [Bool.and_eq_true, Bool.not_eq_true'] at hcond
      obtain ⟨⟨hinit, hev⟩, hnodes⟩ := hcond
      refine ⟨by simpa using h1, ?_, fun _ => hev, h4⟩
      intro hf
      obtain ⟨he2, hi2, ht2⟩ := h2 (by simpa using hf)
      rw [hi2] at hinit
      cases hinit
    · rw [if_neg hcond]
      refine ⟨by simpa using h1, ?_, ?_, h4⟩
      · intro hf
        obtain ⟨he2, hi2, ht2⟩ := h2 (by simpa using hf)
        exact ⟨he2, hi2, rfl⟩
      · intro htm
        simp at htm
  | fire =>
    cases ht : s.timer with
    | none =>
      rw [step_fire_none ht]
      exact ⟨h1, h2, h3, h4⟩
    | some dp =>
      obtain ⟨d, p⟩ := dp
      have hev : s.isEvaluating = false := h3 (by rw [ht]; rfl)
      rw [step_fire_go ht hev]
      rw [hev] at h1
      simp only [Bool.false_eq_true, if_false] at h1
      refine ⟨by simp [h1], ?_, ?_, h4⟩
      · intro hf
        obtain ⟨he2, hi2, ht2⟩ := h2 (by simpa using hf)
        rw [ht2] at ht
        cases ht
      · intro htm
        simp at htm
  | complete o =>
    cases hev : s.isEvaluating with
    | false =>
      rw [step_complete_idle hev]
      exact ⟨h1, h2, h3, h4⟩
    | true =>
      rw [hev] at h1
      simp only [if_true] at h1
      have hload : s.loadStarted = true := by
        cases hl : s.loadStarted with
        | true => rfl
        | false =>
          obtain ⟨he2, _, _⟩ := h2 hl
          rw [he2] at hev
          cases hev
      cases o with
      | failed =>
        rw [step_complete_failed hev]
        exact ⟨by simp [h1], fun hf => absurd (hload.symm.trans hf) (by simp),
          fun htm => rfl, h4⟩
      | ok geoms m =>
        cases geoms with
        | none =>
          rw [step_complete_ok_none hev]
          exact ⟨by simp [h1], fun hf => absurd (hload.symm.trans hf) (by simp),
            fun htm => rfl, h4⟩
        | some gs =>
          rw [step_complete_ok_some hev]
          exact ⟨by simp [h1], fun hf => absurd (hload.symm.trans hf) (by simp),
            fun htm => rfl, rfl⟩

theorem inv_run (es : List SchedEvent) (s : SchedState) (h : Inv s) :
    Inv (run s es) := by
  induction es generalizing s with
  | nil => exact h
  | cons e es ih => exact ih (step s e) (inv_step s e h)

theorem inflight_increase_flag (s : SchedState) (e : SchedEvent)
    (h : Inv s) (hinc : s.inflight < (step s e).inflight) :
    s.isEvaluating = false := by
  obtain ⟨h1, h2, h3, h4⟩ := h
  cases e with
  | load m =>
    cases hl : s.loadStarted with
    | true =>
      rw [step_load_started hl] at hinc
      exact absurd hinc (lt_irrefl _)
    | false => exact (h2 hl).1
  | change d p =>
    rw [step_change] at hinc
    by_cases hcond : (s.initialized && !s.isEvaluating &&
        (s.diamNode.isSome || s.polyNode.isSome)) = true
    · rw [if_pos hcond] at hinc
      simp at hinc
    · rw [if_neg hcond] at hinc
      simp at hinc
  | fire =>
    cases ht : s.timer with
    | none =>
      rw [step_fire_none ht] at hinc
      exact absurd hinc (lt_irrefl _)
    | some dp =>
      obtain ⟨d, p⟩ := dp
      cases hev : s.isEvaluating with
      | false => rfl
      | true =>
        rw [step_fire_busy ht hev] at hinc
        simp at hinc
  | complete o =>
    cases hev : s.isEvaluating with
    | false => rfl
    | true =>
      cases o with
      | failed =>
        rw [step_complete_failed hev] at hinc
        simp at hinc
        omega
      | ok geoms m =>
        cases geoms with
        | none =>
          rw [step_complete_ok_none hev] at hinc
          simp at hinc
          omega
        | some gs =>
          rw [step_complete_ok_some hev] at hinc
          simp at hinc
          omega

end Sched

namespace Sched

theorem run_append (s : SchedState) (es1 es2 : List SchedEvent) :
    run s (es1 ++ es2) = run (run s es1) es2 :=
  List.foldl_append step s es1 es2

theorem run_singleton (s : SchedState) (e : SchedEvent) :
    run s [e] = step s e := rfl

theorem run_changes (cs : List (ℚ × ℚ)) (c : ℚ × ℚ) :
    ∀ s : SchedState, s.initialized = true → s.isEvaluating = false →
      (s.diamNode.isSome || s.polyNode.isSome) = true →
      run s ((cs ++ [c]).map fun v => SchedEvent.change v.1 v.2)
        = { s with diameter := c.1, polygon := c.2, timer := some (c.1, c.2) } := by
  induction cs with
  | nil =>
    intro s h1 h2 h3
    show step s (.change c.1 c.2) = _
    rw [step_change_sched c.1 c.2 h1 h2 h3]
  | cons v vs ih =>
    intro s h1 h2 h3
    show run (step s (.change v.1 v.2))
      ((vs ++ [c]).map fun v => SchedEvent.change v.1 v.2) = _
    rw [step_change_sched v.1 v.2 h1 h2 h3]
    exact ih { s with diameter := v.1, polygon := v.2, timer := some (v.1, v.2) }
      h1 h2 h3

end Sched

/-- Claim C1: for every event sequence on one graph instance, at most one
evaluator invocation is ever in flight; an invocation only starts when
the `isEvaluatingRef` guard is clear; and the displayed model is always
exactly the full converted result set of the last fully completed
evaluation that carried geometry (the initial load evaluation or a later
one; empty before the first), never a partial mixture of two
evaluations. -/
theorem c1_single_flight (d p : ℚ) (es : List Sched.SchedEvent) :
    (Sched.run (Sched.initState d p) es).inflight ≤ 1 ∧
    (Sched.run (Sched.initState d p) es).geometries =
      (match (Sched.run (Sched.initState d p) es).lastApplied with
        | none => []
        | some gs => Geometry.processGeometries gs) ∧
    (∀ e, (Sched.run (Sched.initState d p) es).inflight <
        (Sched.step (Sched.run (Sched.initState d p) es) e).inflight →
      (Sched.run (Sched.initState d p) es).isEvaluating = false) := by
  obtain ⟨h1, h2, h3, h4⟩ := Sched.inv_run es (Sched.initState d p) (Sched.inv_init d p)
  refine ⟨?_, h4,
    fun e hinc => Sched.inflight_increase_flag _ e ⟨h1, h2, h3, h4⟩ hinc⟩
  rw [h1]
  split
  · exact le_refl 1
  · exact Nat.zero_le 1

/-- Witness for claim C1: after load, initial evaluation and one
parameter change, firing the pending debounce timer starts an evaluation
(the in-flight count increases), and the guard is indeed clear there. -/
theorem c1_single_flight_witness :
    (Sched.run (Sched.initState 112 8)
      [.load Sched.sampleModular, .complete (.ok none Sched.sampleModular),
        .change 100 5]).isEvaluating = false :=
  (c1_single_flight 112 8
    [.load Sched.sampleModular, .complete (.ok none Sched.sampleModular),
      .change 100 5]).2.2 .fire (by decide)

/-- Claim C2: as stated it is false.  In the lost-update trace the change
to (120, 7) arrives while the evaluation carrying (100, 5) is in flight:
the parameter effect returns early without scheduling a debounce timer,
and completion does not reschedule it.  The run ends idle — no timer
pending, firing changes nothing — with exactly one property-update batch
ever pushed, the one carrying (100, 5): no evaluation carrying the last
change (120, 7) ran or will run without a further external change. -/
theorem c2_counterexample :
    (Sched.run (Sched.initState 112 8) Sched.lostUpdateTrace).calls
      = [Sched.updatesFor (some "a") (some "b") 100 5] ∧
    (Sched.run (Sched.initState 112 8) Sched.lostUpdateTrace).timer = none ∧
    (Sched.run (Sched.initState 112 8) Sched.lostUpdateTrace).isEvaluating = false ∧
    (Sched.run (Sched.initState 112 8) Sched.lostUpdateTrace).diameter = 120 ∧
    (Sched.run (Sched.initState 112 8) Sched.lostUpdateTrace).polygon = 7 ∧
    Sched.step (Sched.run (Sched.initState 112 8) Sched.lostUpdateTrace) .fire
      = Sched.run (Sched.initState 112 8) Sched.lostUpdateTrace := by
  decide

/-- Claim C2 (amended): a parameter change arriving while an evaluation
is in flight is dropped by the scheduler: any pending timer is cleared,
no new debounce timer is scheduled, and no property-update batch or
evaluator call is produced for it — the in-flight completion does not
reschedule it.  The change only takes effect if a further parameter
change arrives when the scheduler is idle again: that later change
schedules a timer whose firing pushes exactly one batch carrying the
then-current (latest) values. -/
theorem c2_change_inflight_dropped (s s2 : Sched.SchedState) (d p d2 p2 : ℚ)
    (h1 : s.isEvaluating = true) (h2 : s2.initialized = true)
    (h3 : s2.isEvaluating = false)
    (h4 : (s2.diamNode.isSome || s2.polyNode.isSome) = true) :
    (Sched.step s (.change d p)).timer = none ∧
    (Sched.step s (.change d p)).calls = s.calls ∧
    (Sched.step s (.change d p)).evalCount = s.evalCount ∧
    (Sched.run s2 [.change d2 p2, .fire]).calls
      = s2.calls ++ [Sched.updatesFor s2.diamNode s2.polyNode d2 p2] ∧
    (Sched.run s2 [.change d2 p2, .fire]).evalCount = s2.evalCount + 1 := by
  have hstep : Sched.step s (.change d p)
      = { s with diameter := d, polygon := p, timer := none } := by
    rw [Sched.step_change, if_neg]
    simp [h1]
  have h6 : Sched.run s2 [.change d2 p2, .fire]
      = Sched.step (Sched.step s2 (.change d2 p2)) .fire := rfl
  rw [hstep, h6, Sched.step_change_sched d2 p2 h2 h3 h4,
    @Sched.step_fire_go
      { s2 with diameter := d2, polygon := p2, timer := some (d2, p2) }
      d2 p2 rfl h3]
  exact ⟨rfl, rfl, rfl, rfl, rfl⟩

/-- Witness for the amended claim C2: the concrete in-flight state of the
lost-update trace drops the change to (120, 7); a later change in the
idle initialized state leads to exactly one batch carrying it. -/
theorem c2_change_inflight_dropped_witness :
    (Sched.step (Sched.run (Sched.initState 112 8)
        [.load Sched.sampleModular, .complete (.ok none Sched.sampleModular),
          .change 100 5, .fire]) (.change 120 7)).timer = none ∧
    (Sched.run (Sched.run (Sched.initState 112 8)
        [.load Sched.sampleModular, .complete (.ok none Sched.sampleModular)])
      [.change 120 7, .fire]).calls
      = (Sched.run (Sched.initState 112 8)
          [.load Sched.sampleModular, .complete (.ok none Sched.sampleModular)]).calls
        ++ [Sched.updatesFor
            (Sched.run (Sched.initState 112 8)
              [.load Sched.sampleModular,
                .complete (.ok none Sched.sampleModular)]).diamNode
            (Sched.run (Sched.initState 112 8)
              [.load Sched.sampleModular,
                .complete (.ok none Sched.sampleModular)]).polyNode
            120 7] := by
  have h := c2_change_inflight_dropped
    (Sched.run (Sched.initState 112 8)
      [.load Sched.sampleModular, .complete (.ok none Sched.sampleModular),
        .change 100 5, .fire])
    (Sched.run (Sched.initState 112 8)
      [.load Sched.sampleModular, .complete (.ok none Sched.sampleModular)])
    120 7 120 7 (by decide) (by decide) (by decide) (by decide)
  exact ⟨h.1, h.2.2.2.1⟩

/-- Claim C5: a burst of parameter changes all arriving within one
debounce window (scheduler initialized, idle, at least one bound node)
produces, once the final timer fires, exactly one evaluator call, and the
property-update batch it pushes carries only the final values; moreover
each new change replaces the pending timer with one carrying its own
values (cancelling the previous one). -/
theorem c5_debounce_coalescing (s : Sched.SchedState) (cs : List (ℚ × ℚ))
    (c : ℚ × ℚ) (h1 : s.initialized = true) (h2 : s.isEvaluating = false)
    (h3 : (s.diamNode.isSome || s.polyNode.isSome) = true) :
    (Sched.run s ((cs ++ [c]).map fun v => Sched.SchedEvent.change v.1 v.2)).timer
      = some (c.1, c.2) ∧
    (Sched.run s (((cs ++ [c]).map fun v => Sched.SchedEvent.change v.1 v.2)
        ++ [.fire])).calls
      = s.calls ++ [Sched.updatesFor s.diamNode s.polyNode c.1 c.2] ∧
    (Sched.run s (((cs ++ [c]).map fun v => Sched.SchedEvent.change v.1 v.2)
        ++ [.fire])).evalCount = s.evalCount + 1 ∧
    (∀ d p, (Sched.step s (.change d p)).timer = some (d, p)) := by
  have hrun := Sched.run_changes cs c s h1 h2 h3
  have happ := Sched.run_append s
    ((cs ++ [c]).map fun v => Sched.SchedEvent.change v.1 v.2) [.fire]
  refine ⟨by rw [hrun], ?_, ?_,
    fun d p => by rw [Sched.step_change_sched d p h1 h2 h3]⟩
  · rw [happ, hrun, Sched.run_singleton,
      @Sched.step_fire_go
        { s with diameter := c.1, polygon := c.2, timer := some (c.1, c.2) }
        c.1 c.2 rfl h2]
  · rw [happ, hrun, Sched.run_singleton,
      @Sched.step_fire_go
        { s with diameter := c.1, polygon := c.2, timer := some (c.1, c.2) }
        c.1 c.2 rfl h2]

/-- Witness for claim C5: two rapid changes (90, 4) then (100, 5) in the
loaded idle state produce exactly one additional evaluator call whose
batch carries only the final values (100, 5). -/
theorem c5_debounce_coalescing_witness :
    (Sched.run (Sched.run (Sched.initState 112 8)
        [.load Sched.sampleModular, .complete (.ok none Sched.sampleModular)])
      ((([((90 : ℚ), (4 : ℚ))] ++ [((100 : ℚ), (5 : ℚ))]).map
          fun v => Sched.SchedEvent.change v.1 v.2) ++ [.fire])).calls
      = (Sched.run (Sched.initState 112 8)
          [.load Sched.sampleModular, .complete (.ok none Sched.sampleModular)]).calls
        ++ [Sched.updatesFor
            (Sched.run (Sched.initState 112 8)
              [.load Sched.sampleModular,
                .complete (.ok none Sched.sampleModular)]).diamNode
            (Sched.run (Sched.initState 112 8)
              [.load Sched.sampleModular,
                .complete (.ok none Sched.sampleModular)]).polyNode
            100 5] ∧
    (Sched.run (Sched.run (Sched.initState 112 8)
        [.load Sched.sampleModular, .complete (.ok none Sched.sampleModular)])
      ((([((90 : ℚ), (4 : ℚ))] ++ [((100 : ℚ), (5 : ℚ))]).map
          fun v => Sched.SchedEvent.change v.1 v.2) ++ [.fire])).evalCount
      = (Sched.run (Sched.initState 112 8)
          [.load Sched.sampleModular,
            .complete (.ok none Sched.sampleModular)]).evalCount + 1 := by
  have h := c5_debounce_coalescing
    (Sched.run (Sched.initState 112 8)
      [.load Sched.sampleModular, .complete (.ok none Sched.sampleModular)])
    [((90 : ℚ), (4 : ℚ))] ((100 : ℚ), (5 : ℚ))
    (by decide) (by decide) (by decide)
  exact ⟨h.2.1, h.2.2.1⟩

/-- Claim C9: if artifact extraction fails — the node labeled `gcode` is
absent, its output slot is empty (the payload chain yields nothing), or
the first payload is not of plain textual kind — the exported artifact is
left unchanged (so it stays `null` if no extraction ever succeeded); the
artifact changes only when the payload is a nonempty string, hence the
callback is invoked only on string payloads; and the displayed geometry
of a completed evaluation is the converted result set regardless of the
gcode output structure, so extraction failure never affects geometry
conversion. -/
theorem c9_gcode_extraction_failure (m : Sched.ModularState) (prev : Option String) :
    (m.nodes.find? (fun node => node.label == some "gcode") = none →
      Sched.extractGcode m prev = prev) ∧
    (∀ gn, m.nodes.find? (fun node => node.label == some "gcode") = some gn →
      (Sched.gcodePayload m gn.id = none → Sched.extractGcode m prev = prev) ∧
      (∀ q, Sched.gcodePayload m gn.id = some (.num q) →
        Sched.extractGcode m prev = prev) ∧
      (Sched.gcodePayload m gn.id = some .other →
        Sched.extractGcode m prev = prev) ∧
      (Sched.gcodePayload m gn.id = some (.str "") →
        Sched.extractGcode m prev = prev)) ∧
    (Sched.extractGcode m prev ≠ prev →
      ∃ gn str2, m.nodes.find? (fun node => node.label == some "gcode") = some gn ∧
        Sched.gcodePayload m gn.id = some (.str str2) ∧ str2 ≠ "" ∧
        Sched.extractGcode m prev = some str2) ∧
    (∀ (st : Sched.SchedState) gs, st.isEvaluating = true →
      (Sched.step st (.complete (.ok (some gs) m))).geometries
        = Geometry.processGeometries gs) := by
  refine ⟨?_, ?_, ?_, ?_⟩
  · intro hf
    simp [Sched.extractGcode, hf]
  · intro gn hf
    refine ⟨?_, ?_, ?_, ?_⟩
    · intro hp
      simp [Sched.extractGcode, hf, hp]
    · intro q hp
      simp [Sched.extractGcode, hf, hp]
    · intro hp
      simp [Sched.extractGcode, hf, hp]
    · intro hp
      simp [Sched.extractGcode, hf, hp]
  · intro hne
    cases hfind : m.nodes.find? (fun node => node.label == some "gcode") with
    | none => exact absurd (by simp [Sched.extractGcode, hfind]) hne
    | some gn =>
      cases hpay : Sched.gcodePayload m gn.id with
      | none => exact absurd (by simp [Sched.extractGcode, hfind, hpay]) hne
      | some pl =>
        cases pl with
        | str str2 =>
          by_cases hs : str2 = ""
          · rw [hs] at hpay
            exact absurd (by simp [Sched.extractGcode, hfind, hpay]) hne
          · exact ⟨gn, str2, rfl, hpay, hs,
              by simp [Sched.extractGcode, hfind, hpay, hs]⟩
        | num q => exact absurd (by simp [Sched.extractGcode, hfind, hpay]) hne
        | other => exact absurd (by simp [Sched.extractGcode, hfind, hpay]) hne
  · intro st gs hev
    rw [Sched.step_complete_ok_some hev]

/-- Witness for claim C9: the sample evaluator state has no node labeled
`gcode`, so extraction keeps the previous artifact, and a completed
evaluation applies its (empty) geometry set regardless. -/
theorem c9_gcode_extraction_failure_witness :
    Sched.extractGcode Sched.sampleModular (some "G0 X0") = some "G0 X0" ∧
    (Sched.step (Sched.run (Sched.initState 112 8)
        [.load Sched.sampleModular, .complete (.ok none Sched.sampleModular),
          .change 100 5, .fire])
      (.complete (.ok (some []) Sched.sampleModular))).geometries
      = Geometry.processGeometries [] := by
  have h := c9_gcode_extraction_failure Sched.sampleModular (some "G0 X0")
  exact ⟨h.1 (by decide), h.2.2.2
    (Sched.run (Sched.initState 112 8)
      [.load Sched.sampleModular, .complete (.ok none Sched.sampleModular),
        .change 100 5, .fire]) [] (by decide)⟩
